import Mathlib

/-!
Verification of `gpytorch/priors/normal_prior.py` (class `NormalPrior`).

Shallow embedding conventions:
* Real-valued tensor entries are modelled as rationals (`ℚ`); all tensors in
  the claims are one-dimensional, and `__init__` flattens its buffers with
  `view(-1)`, so a tensor is modelled as a `List ℚ`.
* Caller-supplied tensors live in a `Store` (a heap of lists addressed by
  `Nat` references); `register_buffer(..., t.view(-1).clone())` is modelled
  as allocating a fresh cell holding a copy of the list, which lets the
  copy-vs-alias behaviour be stated.
* `raise ValueError(...)` and the torch argument validation are modelled with
  `Except PriorError`; the error constructors name the four raise sites.
* `torch.distributions.normal.Normal(loc, scale, validate_args=True)`
  validates `scale > 0`; it is modelled by `mkNormal`.
-/

namespace GPyTorch

/-- A heap of one-dimensional tensors: memory maps references to lists,
`next` is the next fresh reference. -/
structure Store where
  mem : Nat → List ℚ
  next : Nat

/-- Read the tensor held at reference `r`. -/
def Store.read (st : Store) (r : Nat) : List ℚ := st.mem r

/-- In-place mutation of the tensor at reference `r` (models the caller
writing into a tensor object it still holds). -/
def Store.write (st : Store) (r : Nat) (v : List ℚ) : Store :=
  ⟨fun q => if q = r then v else st.mem q, st.next⟩

/-- Allocate a fresh tensor holding `v`; returns the new store and the fresh
reference.  Models `clone()`: the new cell is independent of every existing
reference. -/
def Store.alloc (st : Store) (v : List ℚ) : Store × Nat :=
  (⟨fun q => if q = st.next then v else st.mem q, st.next + 1⟩, st.next)

/-- An argument to `NormalPrior.__init__`: either a plain Python scalar
(`numbers.Number`) or a torch tensor (a reference into the store). -/
inductive PriorArg where
  | scalar (x : ℚ)
  | tensor (r : Nat)
deriving DecidableEq

/-- The construction-time failures of `NormalPrior.__init__`, one
constructor per raise site:
* `typeMismatch`: "loc and scale must be both either scalars or Tensors";
* `shapeMismatch`: "loc and scale must have the same shape";
* `sizeNotApplicable`: "can only set size for scalar loc and scale";
* `nonPositiveScale`: raised by `Normal(..., validate_args=True)` inside
  `_initialize_distributions` when a scale entry is not positive. -/
inductive PriorError where
  | typeMismatch
  | shapeMismatch
  | sizeNotApplicable
  | nonPositiveScale
deriving DecidableEq

/-- A per-element univariate normal distribution object
(`torch.distributions.normal.Normal`). -/
structure Normal where
  loc : ℚ
  scale : ℚ
deriving DecidableEq

/-- Constructor call `Normal(loc=lc, scale=sc, validate_args=True)`:
argument validation requires a positive scale. -/
def mkNormal (lc sc : ℚ) : Except PriorError Normal :=
  if 0 < sc then .ok ⟨lc, sc⟩ else .error .nonPositiveScale

/-- Candidate parameter values passed to `is_in_support`, including the
IEEE special values named by the spec. -/
inductive RVal where
  | finite (q : ℚ)
  | posInf
  | negInf
  | nan
deriving DecidableEq

/-- The constructed prior object.  `locRef`/`scaleRef` are the references of
the two registered buffers; `log_transform` stores the `_log_transform`
flag; `distributions` is `_distributions`. -/
structure NormalPrior where
  locRef : Nat
  scaleRef : Nat
  log_transform : Bool
  distributions : List Normal
deriving DecidableEq

/-- The Python expression `size or 1` applied to an optional size: `None` and `0` are
falsy, any other number is itself. -/
def sizeOr1 (size : Option Nat) : Nat :=
  match size with
  | none => 1
  | some n => if n = 0 then 1 else n

/-- The loop body of `_initialize_distributions`:
`[Normal(loc=lc, scale=sc, validate_args=True) for lc, sc in zip(self.loc, self.scale)]`.
`zip` truncates to the shorter list; the comprehension raises at the first
failing element. -/
def initDistributions (locs scales : List ℚ) : Except PriorError (List Normal) :=
  match locs, scales with
  | [], _ => .ok []
  | _ :: _, [] => .ok []
  | lc :: ls, sc :: ss =>
    match mkNormal lc sc with
    | .error e => .error e
    | .ok d =>
      match initDistributions ls ss with
      | .error e => .error e
      | .ok ds => .ok (d :: ds)

/-- The tail of `__init__` after validation: register the two buffers
(`register_buffer("loc", loc.view(-1).clone())` and likewise for scale,
modelled as fresh allocations of the flattened lists), store the flag, and
run `_initialize_distributions`, which may raise. -/
def NormalPrior.finishConstruct (st : Store) (L S : List ℚ) (lt : Bool) :
    Except PriorError (NormalPrior × Store) :=
  let a1 := st.alloc L
  let a2 := a1.1.alloc S
  match initDistributions L S with
  | .error e => .error e
  | .ok ds => .ok (⟨a1.2, a2.2, lt, ds⟩, a2.1)

/-- Constructor `NormalPrior.__init__(loc, scale, log_transform, size)`:
1. both scalars: broadcast each to `torch.full((size or 1,), x)`;
2. otherwise, if not both tensors: `ValueError` (type mismatch);
3. otherwise, if the shapes differ: `ValueError` (shape mismatch);
4. otherwise, if `size is not None`: `ValueError` (size not applicable);
5. otherwise register the buffers and build the distributions. -/
def NormalPrior.construct (st : Store) (loc scale : PriorArg) (lt : Bool)
    (size : Option Nat) : Except PriorError (NormalPrior × Store) :=
  match loc, scale with
  | .scalar m, .scalar s =>
    NormalPrior.finishConstruct st (List.replicate (sizeOr1 size) m)
      (List.replicate (sizeOr1 size) s) lt
  | .tensor rl, .tensor rs =>
    if (st.read rl).length ≠ (st.read rs).length then .error .shapeMismatch
    else if size.isSome then .error .sizeNotApplicable
    else NormalPrior.finishConstruct st (st.read rl) (st.read rs) lt
  | _, _ => .error .typeMismatch

/-- A later call of `_initialize_distributions`: rebuilds `_distributions`
from the current contents of the `loc` and `scale` buffers. -/
def NormalPrior.reinitDistributions (st : Store) (p : NormalPrior) :
    Except PriorError NormalPrior :=
  match initDistributions (st.read p.locRef) (st.read p.scaleRef) with
  | .error e => .error e
  | .ok ds => .ok ⟨p.locRef, p.scaleRef, p.log_transform, ds⟩

/-- Method `NormalPrior.is_in_support(self, parameter)`: `return True`. -/
def NormalPrior.is_in_support (_p : NormalPrior) (_parameter : RVal) : Bool :=
  true

/-- The empty store: no allocated tensors. -/
def emptyStore : Store := ⟨fun _ => [], 0⟩

/-- A store holding tensor `a` at reference `0` and tensor `b` at
reference `1`. -/
def storeOf (a b : List ℚ) : Store :=
  ⟨fun r => if r = 0 then a else if r = 1 then b else [], 2⟩

/-- The prior produced by `NormalPrior(0, 1)` evaluated on the empty store. -/
def wPriorS : NormalPrior := ⟨0, 1, false, [⟨0, 1⟩]⟩

/-- The store produced by `NormalPrior(0, 1)` evaluated on the empty store. -/
def wStoreS : Store :=
  ⟨fun q => if q = 1 then [1] else if q = 0 then [0] else [], 2⟩

/-- The prior produced by `NormalPrior(torch.tensor([1.]), torch.tensor([2.]))`
evaluated on `storeOf [1] [2]`. -/
def wPriorT : NormalPrior := ⟨2, 3, false, [⟨1, 2⟩]⟩

/-- The store produced by `NormalPrior(torch.tensor([1.]), torch.tensor([2.]))`
evaluated on `storeOf [1] [2]`. -/
def wStoreT : Store :=
  ⟨fun q => if q = 3 then [2] else if q = 2 then [1] else (storeOf [1] [2]).mem q, 4⟩

/-- Broadcasting a positive scale through `_initialize_distributions`
succeeds and yields one identical distribution per index. -/
lemma initDistributions_replicate (n : Nat) (m s : ℚ) (hs : 0 < s) :
    initDistributions (List.replicate n m) (List.replicate n s) =
      .ok (List.replicate n ⟨m, s⟩) := by
  induction n with
  | zero => rfl
  | succ k ih => simp [List.replicate_succ, initDistributions, mkNormal, hs, ih]

/-- A successful `_initialize_distributions` produces one distribution per
zipped index. -/
lemma initDistributions_length :
    ∀ (L S : List ℚ) (ds : List Normal), initDistributions L S = .ok ds →
      ds.length = min L.length S.length := by
  intro L
  induction L with
  | nil =>
    intro S ds h
    simp only [initDistributions] at h
    cases h
    simp
  | cons l ls ih =>
    intro S ds h
    cases S with
    | nil =>
      simp only [initDistributions] at h
      cases h
      simp
    | cons s ss =>
      simp only [initDistributions] at h
      cases hm : mkNormal l s with
      | error e => rw [hm] at h; cases h
      | ok d =>
        rw [hm] at h
        cases hr : initDistributions ls ss with
        | error e => rw [hr] at h; cases h
        | ok ds2 =>
          rw [hr] at h
          cases h
          have := ih ss ds2 hr
          simp [this, Nat.succ_min_succ]

/-- When every scale entry is positive, `_initialize_distributions`
succeeds, yields one distribution per index, and the distribution at index
`i` is parameterized by the pair at index `i`. -/
lemma initDistributions_ok_of_pos :
    ∀ (L S : List ℚ), L.length = S.length →
      (∀ i, (h : i < S.length) → 0 < S.get ⟨i, h⟩) →
      ∃ ds, initDistributions L S = .ok ds ∧ ds.length = L.length ∧
        ∀ i, (hL : i < L.length) → (hS : i < S.length) → (hd : i < ds.length) →
          ds.get ⟨i, hd⟩ = ⟨L.get ⟨i, hL⟩, S.get ⟨i, hS⟩⟩ := by
  intro L
  induction L with
  | nil =>
    intro S _ _
    exact ⟨[], by simp only [initDistributions], by simp,
      by intro i hL; exact absurd hL (by simp)⟩
  | cons l ls ih =>
    intro S hlen hpos
    cases S with
    | nil => simp at hlen
    | cons s ss =>
      have hs0 : 0 < s := hpos 0 (by simp)
      obtain ⟨ds, hds, hdl, hdg⟩ :=
        ih ss (by simpa using hlen)
          (fun i hp => by
            have := hpos (i + 1) (by simpa using Nat.succ_lt_succ hp)
            simpa using this)
      refine ⟨⟨l, s⟩ :: ds, ?_, by simp [hdl], ?_⟩
      · simp [initDistributions, mkNormal, hs0, hds]
      · intro i hL hS hd
        cases i with
        | zero => simp
        | succ j =>
          simpa using hdg j (by simpa using hL) (by simpa using hS) (by simpa using hd)

/-- When the lists have equal length and some scale entry is not positive,
`_initialize_distributions` raises the validation error. -/
lemma initDistributions_error_of_nonpos :
    ∀ (L S : List ℚ), L.length = S.length → (∃ s ∈ S, s ≤ 0) →
      initDistributions L S = .error .nonPositiveScale := by
  intro L
  induction L with
  | nil =>
    intro S hlen hbad
    obtain ⟨x, hx, _⟩ := hbad
    cases S with
    | nil => simp at hx
    | cons s ss => simp at hlen
  | cons l ls ih =>
    intro S hlen hbad
    cases S with
    | nil => simp at hlen
    | cons s ss =>
      obtain ⟨x, hx, hxle⟩ := hbad
      rcases List.mem_cons.mp hx with rfl | hx2
      · simp [initDistributions, mkNormal, not_lt.mpr hxle]
      · by_cases hs : 0 < s
        · have hrec := ih ss (by simpa using hlen) ⟨x, hx2, hxle⟩
          simp [initDistributions, mkNormal, hs, hrec]
        · simp [initDistributions, mkNormal, hs]

/-- The scalar path of `__init__` broadcasts both scalars to length
`size or 1` and runs the tail. -/
lemma construct_scalar_eq (st : Store) (m s : ℚ) (lt : Bool) (size : Option Nat) :
    NormalPrior.construct st (.scalar m) (.scalar s) lt size =
      NormalPrior.finishConstruct st (List.replicate (sizeOr1 size) m)
        (List.replicate (sizeOr1 size) s) lt := rfl

/-- Explicit description of the tail of `__init__` when
`_initialize_distributions` succeeds: the two buffers are fresh cells
holding copies of the two lists. -/
lemma finishConstruct_eq (st : Store) (L S : List ℚ) (lt : Bool) (ds : List Normal)
    (h : initDistributions L S = .ok ds) :
    NormalPrior.finishConstruct st L S lt =
      .ok (⟨st.next, st.next + 1, lt, ds⟩,
        ⟨fun q => if q = st.next + 1 then S else if q = st.next then L else st.mem q,
          st.next + 2⟩) := by
  simp [NormalPrior.finishConstruct, Store.alloc, h]

/-- Inversion for a successful tail of `__init__`. -/
lemma finishConstruct_ok_inv (st : Store) (L S : List ℚ) (lt : Bool)
    (p : NormalPrior) (st' : Store)
    (h : NormalPrior.finishConstruct st L S lt = .ok (p, st')) :
    p.locRef = st.next ∧ p.scaleRef = st.next + 1 ∧ p.log_transform = lt ∧
    initDistributions L S = .ok p.distributions ∧
    st'.read p.locRef = L ∧ st'.read p.scaleRef = S := by
  cases hd : initDistributions L S with
  | error e => simp [NormalPrior.finishConstruct, hd] at h
  | ok ds =>
    rw [finishConstruct_eq st L S lt ds hd] at h
    simp only [Except.ok.injEq, Prod.mk.injEq] at h
    obtain ⟨hp, hst⟩ := h
    subst hp
    subst hst
    refine ⟨rfl, rfl, rfl, by simp [hd], ?_, ?_⟩
    · simp [Store.read]
    · simp [Store.read]

/-- Inversion for a successful tensor-path construction: the shapes agree,
no size was supplied, and the tail ran on the two read lists. -/
lemma construct_tensor_ok_inv (st : Store) (rl rs : Nat) (lt : Bool)
    (size : Option Nat) (p : NormalPrior) (st' : Store)
    (h : NormalPrior.construct st (.tensor rl) (.tensor rs) lt size = .ok (p, st')) :
    (st.read rl).length = (st.read rs).length ∧ size = none ∧
    NormalPrior.finishConstruct st (st.read rl) (st.read rs) lt = .ok (p, st') := by
  by_cases h1 : (st.read rl).length = (st.read rs).length
  · cases size with
    | none => exact ⟨h1, rfl, by simpa [NormalPrior.construct, h1] using h⟩
    | some n => simp [NormalPrior.construct, h1] at h
  · simp [NormalPrior.construct, h1] at h

/-- Inversion for any successful construction: some pair of equal-length
lists reached the tail of `__init__`. -/
lemma construct_ok_inv (st : Store) (la sa : PriorArg) (lt : Bool)
    (size : Option Nat) (p : NormalPrior) (st' : Store)
    (h : NormalPrior.construct st la sa lt size = .ok (p, st')) :
    ∃ L S, L.length = S.length ∧
      NormalPrior.finishConstruct st L S lt = .ok (p, st') := by
  cases la with
  | scalar m =>
    cases sa with
    | scalar s => exact ⟨_, _, by simp, h⟩
    | tensor r => simp [NormalPrior.construct] at h
  | tensor rl =>
    cases sa with
    | scalar s => simp [NormalPrior.construct] at h
    | tensor rs =>
      obtain ⟨h1, _, h3⟩ := construct_tensor_ok_inv st rl rs lt size p st' h
      exact ⟨_, _, h1, h3⟩

/-- Claim C1: for positive scalars `m`, `s` and positive integer `n`,
`NormalPrior(m, s, size=n)` succeeds with `loc`/`scale` buffers of length
`n` whose entries all equal `m`/`s` and exactly `n` distributions; with
`size` unspecified, `NormalPrior(m, s)` succeeds with `loc == [m]`,
`scale == [s]` and exactly one distribution. -/
theorem normalPrior_scalar_broadcast (st : Store) (m s : ℚ) (lt : Bool) (n : Nat)
    (_hm : 0 < m) (hs : 0 < s) (hn : 0 < n) :
    (∃ p st', NormalPrior.construct st (.scalar m) (.scalar s) lt (some n) =
        .ok (p, st') ∧
      st'.read p.locRef = List.replicate n m ∧
      st'.read p.scaleRef = List.replicate n s ∧
      p.distributions.length = n) ∧
    (∃ p st', NormalPrior.construct st (.scalar m) (.scalar s) lt none =
        .ok (p, st') ∧
      st'.read p.locRef = [m] ∧ st'.read p.scaleRef = [s] ∧
      p.distributions.length = 1) := by
  constructor
  · have hn' : sizeOr1 (some n) = n := by
      simp [sizeOr1, Nat.pos_iff_ne_zero.mp hn]
    rw [construct_scalar_eq, hn',
      finishConstruct_eq st _ _ lt _ (initDistributions_replicate n m s hs)]
    refine ⟨_, _, rfl, ?_, ?_, ?_⟩
    · simp [Store.read]
    · simp [Store.read]
    · simp
  · rw [construct_scalar_eq,
      show sizeOr1 none = 1 from rfl,
      finishConstruct_eq st _ _ lt _ (initDistributions_replicate 1 m s hs)]
    refine ⟨_, _, rfl, ?_, ?_, ?_⟩
    · simp [Store.read]
    · simp [Store.read]
    · simp

/-- Claim C1 witness at `m = 1`, `s = 1`, `n = 2` on the empty store. -/
theorem normalPrior_scalar_broadcast_witness :
    (∃ p st', NormalPrior.construct emptyStore (.scalar 1) (.scalar 1) false (some 2) =
        .ok (p, st') ∧
      st'.read p.locRef = List.replicate 2 1 ∧
      st'.read p.scaleRef = List.replicate 2 1 ∧
      p.distributions.length = 2) ∧
    (∃ p st', NormalPrior.construct emptyStore (.scalar 1) (.scalar 1) false none =
        .ok (p, st') ∧
      st'.read p.locRef = [1] ∧ st'.read p.scaleRef = [1] ∧
      p.distributions.length = 1) :=
  normalPrior_scalar_broadcast emptyStore 1 1 false 2 (by norm_num) (by norm_num)
    (by norm_num)

/-- Claim C2: for equal-length tensors with every scale entry positive,
`NormalPrior(L, S)` succeeds with exactly `len(L)` distributions, the
distribution at index `i` being parameterized by `(L[i], S[i])`. -/
theorem normalPrior_tensor_elementwise (st : Store) (rl rs : Nat) (lt : Bool)
    (hlen : (st.read rl).length = (st.read rs).length)
    (hpos : ∀ i, (h : i < (st.read rs).length) → 0 < (st.read rs).get ⟨i, h⟩) :
    ∃ p st', NormalPrior.construct st (.tensor rl) (.tensor rs) lt none =
        .ok (p, st') ∧
      p.distributions.length = (st.read rl).length ∧
      ∀ i, (hL : i < (st.read rl).length) → (hS : i < (st.read rs).length) →
        (hd : i < p.distributions.length) →
        p.distributions.get ⟨i, hd⟩ =
          ⟨(st.read rl).get ⟨i, hL⟩, (st.read rs).get ⟨i, hS⟩⟩ := by
  obtain ⟨ds, hds, hdl, hdg⟩ :=
    initDistributions_ok_of_pos (st.read rl) (st.read rs) hlen hpos
  have hc : NormalPrior.construct st (.tensor rl) (.tensor rs) lt none =
      NormalPrior.finishConstruct st (st.read rl) (st.read rs) lt := by
    simp [NormalPrior.construct, hlen]
  rw [hc, finishConstruct_eq st _ _ lt ds hds]
  exact ⟨_, _, rfl, hdl, hdg⟩

/-- Claim C2 witness at `L = [1, 2]`, `S = [3, 4]`. -/
theorem normalPrior_tensor_elementwise_witness :
    ∃ p st', NormalPrior.construct (storeOf [1, 2] [3, 4]) (.tensor 0) (.tensor 1)
        false none = .ok (p, st') ∧
      p.distributions.length = ((storeOf [1, 2] [3, 4]).read 0).length ∧
      ∀ i, (hL : i < ((storeOf [1, 2] [3, 4]).read 0).length) →
        (hS : i < ((storeOf [1, 2] [3, 4]).read 1).length) →
        (hd : i < p.distributions.length) →
        p.distributions.get ⟨i, hd⟩ =
          ⟨((storeOf [1, 2] [3, 4]).read 0).get ⟨i, hL⟩,
            ((storeOf [1, 2] [3, 4]).read 1).get ⟨i, hS⟩⟩ :=
  normalPrior_tensor_elementwise (storeOf [1, 2] [3, 4]) 0 1 false (by decide)
    (by decide)

/-- Claim C3: mixing a scalar with a tensor in either order fails with the
type-mismatch error, so no instance is produced. -/
theorem normalPrior_type_mismatch (st : Store) (x : ℚ) (r : Nat) (lt : Bool)
    (size : Option Nat) :
    NormalPrior.construct st (.scalar x) (.tensor r) lt size =
      .error .typeMismatch ∧
    NormalPrior.construct st (.tensor r) (.scalar x) lt size =
      .error .typeMismatch :=
  ⟨rfl, rfl⟩

/-- Claim C4: two tensors of different shapes fail with the shape-mismatch
error. -/
theorem normalPrior_shape_mismatch (st : Store) (rl rs : Nat) (lt : Bool)
    (size : Option Nat)
    (h : (st.read rl).length ≠ (st.read rs).length) :
    NormalPrior.construct st (.tensor rl) (.tensor rs) lt size =
      .error .shapeMismatch := by
  simp [NormalPrior.construct, h]

/-- Claim C4 witness: `NormalPrior([1, 2], [1, 2, 3])` fails with the
shape-mismatch error. -/
theorem normalPrior_shape_mismatch_witness :
    NormalPrior.construct (storeOf [1, 2] [1, 2, 3]) (.tensor 0) (.tensor 1)
      false none = .error .shapeMismatch :=
  normalPrior_shape_mismatch (storeOf [1, 2] [1, 2, 3]) 0 1 false none (by decide)

/-- Claim C5: equal-shape tensors with some scale entry not positive fail
with the validation error raised inside `_initialize_distributions`. -/
theorem normalPrior_non_positive_scale (st : Store) (rl rs : Nat) (lt : Bool)
    (hlen : (st.read rl).length = (st.read rs).length)
    (hbad : ∃ s ∈ st.read rs, s ≤ 0) :
    NormalPrior.construct st (.tensor rl) (.tensor rs) lt none =
      .error .nonPositiveScale := by
  have he := initDistributions_error_of_nonpos (st.read rl) (st.read rs) hlen hbad
  simp [NormalPrior.construct, hlen, NormalPrior.finishConstruct, he]

/-- Claim C5 witness: `NormalPrior([1], [0])` and `NormalPrior([1], [-1])`
both fail with the non-positive-scale validation error. -/
theorem normalPrior_non_positive_scale_witness :
    NormalPrior.construct (storeOf [1] [0]) (.tensor 0) (.tensor 1) false none =
      .error .nonPositiveScale ∧
    NormalPrior.construct (storeOf [1] [-1]) (.tensor 0) (.tensor 1) false none =
      .error .nonPositiveScale :=
  ⟨normalPrior_non_positive_scale _ 0 1 false (by decide) ⟨0, by decide, by decide⟩,
   normalPrior_non_positive_scale _ 0 1 false (by decide) ⟨-1, by decide, by decide⟩⟩

/-- Claim C6: supplying `size` together with equal-shape tensor inputs
fails with the size-not-applicable error. -/
theorem normalPrior_size_not_applicable (st : Store) (rl rs : Nat) (lt : Bool)
    (n : Nat) (hlen : (st.read rl).length = (st.read rs).length) :
    NormalPrior.construct st (.tensor rl) (.tensor rs) lt (some n) =
      .error .sizeNotApplicable := by
  simp [NormalPrior.construct, hlen]

/-- Claim C6 witness: `NormalPrior([1, 2], [1, 1], size=2)` fails with the
size-not-applicable error. -/
theorem normalPrior_size_not_applicable_witness :
    NormalPrior.construct (storeOf [1, 2] [1, 1]) (.tensor 0) (.tensor 1)
      false (some 2) = .error .sizeNotApplicable :=
  normalPrior_size_not_applicable (storeOf [1, 2] [1, 1]) 0 1 false 2 (by decide)

/-- Claim C7: `is_in_support` returns `true` for every prior and every
candidate value, including the infinities and NaN, and its result does not
depend on the input. -/
theorem normalPrior_is_in_support_true (p : NormalPrior) (x y : RVal) :
    p.is_in_support x = true ∧ p.is_in_support x = p.is_in_support y :=
  ⟨rfl, rfl⟩

/-- Claim C8: after a successful tensor-path construction, the prior holds
independent copies of the inputs: writing any value into either of the
caller's tensors leaves the stored `loc` and `scale` buffers equal to the
lists the caller passed at construction time. -/
theorem normalPrior_buffer_copy (st : Store) (rl rs : Nat) (lt : Bool)
    (p : NormalPrior) (st' : Store)
    (hok : NormalPrior.construct st (.tensor rl) (.tensor rs) lt none =
      .ok (p, st'))
    (hrl : rl < st.next) (hrs : rs < st.next) (v : List ℚ) :
    (st'.write rl v).read p.locRef = st.read rl ∧
    (st'.write rs v).read p.locRef = st.read rl ∧
    (st'.write rl v).read p.scaleRef = st.read rs ∧
    (st'.write rs v).read p.scaleRef = st.read rs := by
  obtain ⟨hlen, _, hfin⟩ := construct_tensor_ok_inv st rl rs lt none p st' hok
  obtain ⟨hloc, hscale, _, _, hrdL, hrdS⟩ :=
    finishConstruct_ok_inv st _ _ lt p st' hfin
  have h1 : p.locRef ≠ rl := by rw [hloc]; omega
  have h2 : p.locRef ≠ rs := by rw [hloc]; omega
  have h3 : p.scaleRef ≠ rl := by rw [hscale]; omega
  have h4 : p.scaleRef ≠ rs := by rw [hscale]; omega
  refine ⟨?_, ?_, ?_, ?_⟩
  · simpa [Store.write, Store.read, h1] using hrdL
  · simpa [Store.write, Store.read, h2] using hrdL
  · simpa [Store.write, Store.read, h3] using hrdS
  · simpa [Store.write, Store.read, h4] using hrdS

/-- Claim C8 witness: constructing from the tensors at references `0` and
`1` of `storeOf [1] [2]` and then overwriting either caller tensor with
`[5]` leaves the stored buffers equal to `[1]` and `[2]`. -/
theorem normalPrior_buffer_copy_witness :
    (wStoreT.write 0 [5]).read wPriorT.locRef = (storeOf [1] [2]).read 0 ∧
    (wStoreT.write 1 [5]).read wPriorT.locRef = (storeOf [1] [2]).read 0 ∧
    (wStoreT.write 0 [5]).read wPriorT.scaleRef = (storeOf [1] [2]).read 1 ∧
    (wStoreT.write 1 [5]).read wPriorT.scaleRef = (storeOf [1] [2]).read 1 :=
  normalPrior_buffer_copy (storeOf [1] [2]) 0 1 false wPriorT wStoreT rfl
    (by decide) (by decide) [5]

/-- Claim C9: every successful construction establishes
`len(loc) == len(scale) == len(distributions)`, and a renewed call of
`_initialize_distributions` on the unchanged buffers succeeds and returns
the prior unchanged (idempotence). -/
theorem normalPrior_length_invariant (st : Store) (la sa : PriorArg) (lt : Bool)
    (size : Option Nat) (p : NormalPrior) (st' : Store)
    (hok : NormalPrior.construct st la sa lt size = .ok (p, st')) :
    (st'.read p.locRef).length = (st'.read p.scaleRef).length ∧
    p.distributions.length = (st'.read p.locRef).length ∧
    NormalPrior.reinitDistributions st' p = .ok p := by
  obtain ⟨L, S, hLS, hfin⟩ := construct_ok_inv st la sa lt size p st' hok
  obtain ⟨_, _, _, hinit, hrdL, hrdS⟩ := finishConstruct_ok_inv st L S lt p st' hfin
  have hlen := initDistributions_length L S p.distributions hinit
  refine ⟨?_, ?_, ?_⟩
  · rw [hrdL, hrdS, hLS]
  · rw [hrdL, hlen, hLS, min_self]
  · unfold NormalPrior.reinitDistributions
    rw [hrdL, hrdS, hinit]

/-- Claim C9 witness: the invariant and idempotence at the result of
`NormalPrior(0, 1)` on the empty store. -/
theorem normalPrior_length_invariant_witness :
    (wStoreS.read wPriorS.locRef).length = (wStoreS.read wPriorS.scaleRef).length ∧
    wPriorS.distributions.length = (wStoreS.read wPriorS.locRef).length ∧
    NormalPrior.reinitDistributions wStoreS wPriorS = .ok wPriorS :=
  normalPrior_length_invariant emptyStore (.scalar 0) (.scalar 1) false none
    wPriorS wStoreS rfl

/-- Claim C10: for scalar `loc` and `scale`, passing `size=0` behaves
exactly like leaving `size` unspecified (the Python expression `size or 1`
treats `0` as falsy): construction does not produce an empty prior, and
with a positive scale it succeeds with length-one buffers and exactly one
distribution. -/
theorem normalPrior_size_zero (st : Store) (m s : ℚ) (lt : Bool) :
    NormalPrior.construct st (.scalar m) (.scalar s) lt (some 0) =
      NormalPrior.construct st (.scalar m) (.scalar s) lt none ∧
    (0 < s → ∃ p st',
      NormalPrior.construct st (.scalar m) (.scalar s) lt (some 0) =
        .ok (p, st') ∧
      st'.read p.locRef = [m] ∧ st'.read p.scaleRef = [s] ∧
      p.distributions.length = 1) := by
  constructor
  · rfl
  · intro hs
    rw [construct_scalar_eq, show sizeOr1 (some 0) = 1 from rfl,
      finishConstruct_eq st _ _ lt _ (initDistributions_replicate 1 m s hs)]
    refine ⟨_, _, rfl, ?_, ?_, ?_⟩
    · simp [Store.read]
    · simp [Store.read]
    · simp

/-- Claim C10 witness at `m = 2`, `s = 3` on the empty store. -/
theorem normalPrior_size_zero_witness :
    NormalPrior.construct emptyStore (.scalar 2) (.scalar 3) false (some 0) =
      NormalPrior.construct emptyStore (.scalar 2) (.scalar 3) false none ∧
    (∃ p st',
      NormalPrior.construct emptyStore (.scalar 2) (.scalar 3) false (some 0) =
        .ok (p, st') ∧
      st'.read p.locRef = [2] ∧ st'.read p.scaleRef = [3] ∧
      p.distributions.length = 1) :=
  ⟨(normalPrior_size_zero emptyStore 2 3 false).1,
   (normalPrior_size_zero emptyStore 2 3 false).2 (by norm_num)⟩

end GPyTorch
